import Mathlib

set_option maxHeartbeats 1000000

/- Verification development for the pwr-hd44780 HD44780 LCD driver.

   The definitions below are shallow embeddings of the Rust sources:
   machine integers (u8/usize) are modelled as Nat with explicit `% 256`
   where u8 truncation/wrapping occurs, fallible methods return an explicit
   result value, and every hardware side effect (byte written on the bus,
   GPIO nibble presented, I2C expander byte sent, sleep) is recorded as an
   event in a trace list. -/

/-- Font variants (`Font5x8` / `Font5x10`). -/
inductive Font where
  | font5x8
  | font5x10
deriving DecidableEq, Repr

/-- src/src/point.rs: `Point { x: u8, y: u8 }`. -/
structure Point where
  x : Nat
  y : Nat
deriving DecidableEq, Repr

/-- src/src/error.rs: the `Error` enum of the lcds-family sources. -/
inductive Error where
  | CommunicationError
  | CharOutOfBounds (char : Nat)
  | CursorOutOfBounds (cursor : Point) (screen_dimensions : Point)
deriving DecidableEq, Repr

/-- src/src/properties.rs: `Properties { dimensions: Point, font: Font }`. -/
structure Properties where
  dimensions : Point
  font : Font
deriving DecidableEq, Repr

/-- src/src/lcds/direct.rs: the private `DisplayFlags` state. -/
structure DisplayFlags where
  cursor_blinking : Bool
  cursor_visible : Bool
  text_visible : Bool
deriving DecidableEq, Repr

/-- Byte-level bus event: a command byte write (`RS` low), a data byte
    write (`RS` high), or a sleep of the given number of nanoseconds. -/
inductive BusEv where
  | cmd (value : Nat)
  | data (value : Nat)
  | waitNs (ns : Nat)
deriving DecidableEq, Repr

/-- src/src/utils.rs: `wait_ns(ns)` sleeps `ns` nanoseconds. -/
def wait_ns (ns : Nat) : BusEv := .waitNs ns

/-- src/src/utils.rs: `wait_us(us) = wait_ns(us * 1000)`. -/
def wait_us (us : Nat) : BusEv := wait_ns (us * 1000)

/-- src/src/utils.rs: `wait_ms(ms) = wait_ns(ms * 1000)`.  Note: exactly as
    written in the source, the argument is multiplied by 1000 only once, so
    this sleeps `ms` microseconds, not milliseconds. -/
def wait_ms (ms : Nat) : BusEv := wait_ns (ms * 1000)

/-- The `Command` enum (src/src/lcds/direct/command.rs and, with the same
    payloads, src/src/buses/mod.rs via src/src/interface/command.rs). -/
inductive Command where
  | Clear
  | Home
  | SetEntryMode (enable_shift increment_counter : Bool)
  | SetDisplayFlags (cursor_blinking cursor_visible text_visible : Bool)
  | SetFunctions (font_5x10 : Bool) (height : Nat) (eight_bit_bus : Bool)
  | SetCGRamAddress (address : Nat)
  | SetDDRamAddress (address : Nat)
deriving DecidableEq, Repr

/-- src/src/lcds/direct/command.rs `Command::write`: encodes the command and
    writes it through the bus; `Clear`/`Home` are followed by `wait_ms(1)`.
    The bus writes are recorded as events. -/
def Command.write : Command → List BusEv
  | .Clear => [.cmd 0x01, wait_ms 1]
  | .Home => [.cmd 0x02, wait_ms 1]
  | .SetEntryMode s i =>
      [.cmd (0x04 ||| 0x01 * s.toNat ||| 0x02 * i.toNat)]
  | .SetDisplayFlags bl cv tv =>
      [.cmd (0x08 ||| 0x01 * bl.toNat ||| 0x02 * cv.toNat ||| 0x04 * tv.toNat)]
  | .SetFunctions f h e =>
      [.cmd (0x20 ||| 0x04 * f.toNat ||| 0x08 * (decide (h ≥ 2)).toNat
        ||| 0x10 * e.toNat)]
  | .SetCGRamAddress a => [.cmd (0x40 ||| a)]
  | .SetDDRamAddress a => [.cmd (0x80 ||| a)]

/-- src/src/buses/mod.rs `Bus::execute`: same byte encoding, but the
    `Clear`/`Home` delay is `thread::sleep(Duration::new(0, 1000 * 1000))`,
    i.e. 1,000,000 ns. -/
def Bus.execute : Command → List BusEv
  | .Clear => [.cmd 0x01, .waitNs 1000000]
  | .Home => [.cmd 0x02, .waitNs 1000000]
  | .SetEntryMode s i =>
      [.cmd (0x04 ||| 0x01 * s.toNat ||| 0x02 * i.toNat)]
  | .SetDisplayFlags bl cv tv =>
      [.cmd (0x08 ||| 0x01 * bl.toNat ||| 0x02 * cv.toNat ||| 0x04 * tv.toNat)]
  | .SetFunctions f h e =>
      [.cmd (0x20 ||| 0x04 * f.toNat ||| 0x08 * (decide (h ≥ 2)).toNat
        ||| 0x10 * e.toNat)]
  | .SetCGRamAddress a => [.cmd (0x40 ||| a)]
  | .SetDDRamAddress a => [.cmd (0x80 ||| a)]

/-- Outcome of running a method on `&mut self`: success with the new state
    and emitted trace, an error (the state at the point of the error and the
    trace emitted so far), or a Rust panic (unwinding, no state). -/
inductive RunResult (ε σ : Type) where
  | ok (state : σ) (trace : List BusEv)
  | err (e : ε) (state : σ) (trace : List BusEv)
  | panicked
deriving DecidableEq, Repr

/-- Sequencing of two steps (`?` operator): traces accumulate, errors and
    panics abort. -/
def RunResult.andThen {ε σ : Type} :
    RunResult ε σ → (σ → RunResult ε σ) → RunResult ε σ
  | .ok s tr, f =>
      match f s with
      | .ok s2 tr2 => .ok s2 (tr ++ tr2)
      | .err e s2 tr2 => .err e s2 (tr ++ tr2)
      | .panicked => .panicked
  | .err e s tr, _ => .err e s tr
  | .panicked, _ => .panicked

/-- The trace of a successful run, `none` on error or panic. -/
def traceOf {ε σ : Type} : RunResult ε σ → Option (List BusEv)
  | .ok _ tr => some tr
  | _ => none

/-- src/src/point.rs `Point::validate`: ok iff `x < dimensions.x && y <
    dimensions.y`; the dimensions are those of the queried `Lcd`. -/
def Point.validate (p : Point) (dimensions : Point) : Except Error Unit :=
  if p.x < dimensions.x ∧ p.y < dimensions.y then .ok ()
  else .error (.CursorOutOfBounds p dimensions)

/-- src/src/lcds/direct.rs `DirectLcd` state (a bus handle is held too; the
    bus writes appear in the returned traces). -/
structure DirectLcd where
  properties : Properties
  display_flags : DisplayFlags
deriving DecidableEq, Repr

/-- The fixed DDRAM row-start address table `[0x00, 0x40, 0x14, 0x54]` used
    by both `DirectLcd::goto` and the direct frontends. -/
def ddramAddresses : List Nat := [0x00, 0x40, 0x14, 0x54]

/-- src/src/lcds/direct.rs `DirectLcd::goto`: validate the point, then
    index `addresses[p.y]` (a panic when `p.y ≥ 4`) and write
    `SetDDRamAddress(addresses[p.y] + p.x)` (u8 arithmetic, `% 256`). -/
def DirectLcd.goto (lcd : DirectLcd) (p : Point) : RunResult Error DirectLcd :=
  match p.validate lcd.properties.dimensions with
  | .error e => .err e lcd []
  | .ok _ =>
      match ddramAddresses.get? p.y with
      | none => .panicked
      | some a => .ok lcd (Command.write (.SetDDRamAddress ((a + p.x) % 256)))

/-- src/src/lcds/direct.rs `DirectLcd::print_char`: one data byte write. -/
def DirectLcd.print_char (lcd : DirectLcd) (ch : Nat) : RunResult Error DirectLcd :=
  .ok lcd [.data ch]

/-- src/src/lcds/direct.rs `DirectLcd::create_char`: rejects `char > 7`,
    otherwise writes `SetCGRamAddress(char << 3)` and the 8 pattern lines
    as data bytes, in order. -/
def DirectLcd.create_char (lcd : DirectLcd) (char : Nat) (lines : List Nat) :
    RunResult Error DirectLcd :=
  if char > 7 then .err (.CharOutOfBounds char) lcd []
  else .ok lcd (Command.write (.SetCGRamAddress (char <<< 3)) ++ lines.map .data)

/-- src/src/lcds/direct.rs `DirectLcd::initialize`: the application commands
    pushed at construction (`SetFunctions`, `SetEntryMode`, default
    `SetDisplayFlags`), after the bus's own handshake. -/
def DirectLcd.initCmds (props : Properties) (eight_bit_bus : Bool) : List BusEv :=
  Command.write (.SetFunctions (props.font == Font.font5x10)
      props.dimensions.y eight_bit_bus)
    ++ Command.write (.SetEntryMode false true)
    ++ Command.write (.SetDisplayFlags false false true)

/-- GPIO-level event: a 4-bit nibble presented on the data pins and latched
    by an `Enable` pulse (with the `RS` level), or a sleep. -/
inductive GpioEv where
  | nib (value : Nat) (as_data : Bool)
  | waitNs (ns : Nat)
deriving DecidableEq, Repr

/-- src/src/lcds/direct/buses/gpio.rs `GpioPins::write_nibble`: the data
    pins take bits 4..7 of the argument; then `wait_ms(1)` (1000 ns per
    utils.rs), the `Enable` pulse (450 ns high), and a 37 µs settle. -/
def gpioWriteNibble (nibble : Nat) (as_data : Bool) : List GpioEv :=
  [.nib ((nibble >>> 4) &&& 0xF) as_data,
   .waitNs 1000, .waitNs 450, .waitNs 37000]

/-- src/src/lcds/direct/buses/gpio.rs `GpioPins::write_byte`: high nibble
    (`byte << 0`) then low nibble (`byte << 4`, u8 wrap). -/
def gpioWriteByte (byte : Nat) (as_data : Bool) : List GpioEv :=
  gpioWriteNibble byte as_data ++ gpioWriteNibble ((byte <<< 4) % 256) as_data

/-- src/src/lcds/direct/buses/gpio.rs `GpioBus::new`: the construction
    handshake writes the raw nibbles `0x3, 0x3, 0x3, 0x2` (each passed as
    `cmd << 4`), each followed by `wait_ms(1)` (1000 ns per utils.rs). -/
def gpioNewTrace : List GpioEv :=
  (([0x03, 0x03, 0x03, 0x02].map fun c =>
      gpioWriteNibble ((c <<< 4) % 256) false ++ [GpioEv.waitNs 1000])).flatten

/-- Lowers byte-level bus events to GPIO nibble events through
    `GpioBus::write_command` / `write_data` (both call `write_byte`). -/
def gpioRun : List BusEv → List GpioEv
  | [] => []
  | BusEv.cmd b :: rest => gpioWriteByte b false ++ gpioRun rest
  | BusEv.data b :: rest => gpioWriteByte b true ++ gpioRun rest
  | BusEv.waitNs n :: rest => GpioEv.waitNs n :: gpioRun rest

/-- Full GPIO-level trace of constructing a `DirectLcd` over a `GpioBus`:
    `GpioBus::new` runs its handshake first, then `DirectLcd::new` pushes
    the application commands. -/
def directOverGpioConstruction (props : Properties) : List GpioEv :=
  gpioNewTrace ++ gpioRun (DirectLcd.initCmds props false)

/-- The nibble writes (value paired with the `RS` level) of a GPIO trace. -/
def gpioNibs (tr : List GpioEv) : List (Nat × Bool) :=
  tr.filterMap fun e =>
    match e with
    | .nib v d => some (v, d)
    | _ => none

/-- I2C-level event: an expander byte sent over SMBus, or a sleep. -/
inductive I2cEv where
  | smbus (value : Nat)
  | waitNs (ns : Nat)
deriving DecidableEq, Repr

/-- src/src/buses/i2c.rs `I2C` state: the stored backlight flag. -/
structure I2cState where
  backlight_enabled : Bool
deriving DecidableEq, Repr

/-- src/src/buses/i2c.rs `I2C::write_nibble`: send the expander byte with
    `Enable` (bit 2) high, wait 450 ns, send it again with `Enable` low,
    wait 37 µs. -/
def i2cWriteNibble (value : Nat) : List I2cEv :=
  [.smbus (value ||| 0b00000100), .waitNs 450,
   .smbus (value &&& 0b11111011), .waitNs 37000]

/-- src/src/buses/i2c.rs `I2C::initialize`: write the raw nibbles
    `0x3, 0x3, 0x3, 0x2` (each shifted into bits 4..7), each followed by a
    100 µs sleep. -/
def i2cInitTrace : List I2cEv :=
  (([0x03, 0x03, 0x03, 0x02].map fun c =>
      i2cWriteNibble ((c <<< 4) % 256) ++ [I2cEv.waitNs 100000])).flatten

/-- src/src/buses/i2c.rs `I2C::write_byte`: the backlight bit (0x08) and
    the `Rs` bit (0x01) are OR'd into both expander bytes; high nibble
    (`value << 0 & 0xF0`) then low nibble (`value << 4 & 0xF0`, u8 wrap). -/
def i2cWriteByteTrace (s : I2cState) (value : Nat) (as_data : Bool) : List I2cEv :=
  let mask := 0b00001000 * s.backlight_enabled.toNat ||| 0b00000001 * as_data.toNat
  i2cWriteNibble ((value &&& 0xF0) ||| mask)
    ++ i2cWriteNibble ((((value <<< 4) % 256) &&& 0xF0) ||| mask)

/-- src/src/buses/i2c.rs `I2C::set_backlight`: store the new flag, then
    write one dummy byte (`write_byte(0, false)`) so the change becomes
    visible immediately. -/
def I2C.set_backlight (_s : I2cState) (enabled : Bool) : I2cState × List I2cEv :=
  let s2 : I2cState := { backlight_enabled := enabled }
  (s2, i2cWriteByteTrace s2 0 false)

/-- Lowers byte-level bus events to I2C expander events through
    `I2C::write_byte` with the given stored backlight flag. -/
def i2cRun (s : I2cState) : List BusEv → List I2cEv
  | [] => []
  | BusEv.cmd b :: rest => i2cWriteByteTrace s b false ++ i2cRun s rest
  | BusEv.data b :: rest => i2cWriteByteTrace s b true ++ i2cRun s rest
  | BusEv.waitNs n :: rest => I2cEv.waitNs n :: i2cRun s rest

/-- The data nibble (bits 4..7) of every expander byte sent with `Enable`
    high: one entry per `write_nibble` call. -/
def i2cEnableHighNibbles (tr : List I2cEv) : List Nat :=
  tr.filterMap fun e =>
    match e with
    | .smbus b => if b.testBit 2 then some (b >>> 4) else none
    | _ => none

/-- All expander bytes of an I2C trace. -/
def i2cSmbusBytes (tr : List I2cEv) : List Nat :=
  tr.filterMap fun e =>
    match e with
    | .smbus b => some b
    | _ => none

/-- src/src/frontends/direct.rs `Properties { width, height, font }`. -/
structure FProperties where
  width : Nat
  height : Nat
  font : Font
deriving DecidableEq, Repr

/-- src/src/frontends/direct.rs private `State` (display flags). -/
structure FState where
  cursor_blinking : Bool
  cursor_visible : Bool
  text_visible : Bool
deriving DecidableEq, Repr

/-- src/src/frontends/direct.rs `Direct` frontend state (bus writes appear
    in the returned traces). -/
structure FDirect where
  properties : FProperties
  state : FState
deriving DecidableEq, Repr

/-- The frontends-family error values (strings in the source, modelled as
    tagged values). -/
inductive FError where
  | moveOutsideScreenAt (y x : Nat)
  | moveOutsideScreen
  | printOutsideScreen
  | charIndexOutOfRange
deriving DecidableEq, Repr

/-- src/src/frontends/direct.rs `Direct::height`. -/
def FDirect.height (l : FDirect) : Nat := l.properties.height

/-- src/src/frontends/direct.rs `Direct::width`. -/
def FDirect.width (l : FDirect) : Nat := l.properties.width

/-- src/src/frontends/direct.rs `Direct::move_at`: bounds check, then index
    the row-address vector (a panic when `y ≥ 4`) and execute
    `SetDDRamAddress(addresses[y] + x)` (`as u8`, so `% 256`). -/
def FDirect.move_at (l : FDirect) (y x : Nat) : RunResult FError FDirect :=
  if y ≥ l.height ∨ x ≥ l.width then .err .moveOutsideScreen l []
  else
    match ddramAddresses.get? y with
    | none => .panicked
    | some a => .ok l (Bus.execute (.SetDDRamAddress ((a + x) % 256)))

/-- src/src/frontends/direct.rs `Direct::print_char`: one data byte. -/
def FDirect.print_char (l : FDirect) (ch : Nat) : RunResult FError FDirect :=
  .ok l [.data ch]

/-- src/src/frontends/direct.rs `Direct::create_char`: rejects `idx > 7`,
    otherwise `SetCGRamAddress(idx << 3)` then the 8 lines as data. -/
def FDirect.create_char (l : FDirect) (idx : Nat) (lines : List Nat) :
    RunResult FError FDirect :=
  if idx > 7 then .err .charIndexOutOfRange l []
  else .ok l (Bus.execute (.SetCGRamAddress (idx <<< 3)) ++ lines.map .data)

/-- src/src/frontends/direct.rs `Direct::initialize`: the application
    commands executed after `bus.initialize()`. -/
def FDirect.initCmds (p : FProperties) (eight_bit_bus : Bool) : List BusEv :=
  Bus.execute (.SetFunctions (p.font == Font.font5x10) p.height eight_bit_bus)
    ++ Bus.execute (.SetEntryMode false true)
    ++ Bus.execute (.SetDisplayFlags false false true)

/-- Full I2C-level trace of constructing a frontends-family `Direct` over
    the `I2C` bus (`backlight_enabled` starts `true` in `I2C::new`; the
    I2C bus reports a width of 4, so `eight_bit_bus` is false). -/
def directOverI2cConstruction (p : FProperties) : List I2cEv :=
  i2cInitTrace ++ i2cRun { backlight_enabled := true } (FDirect.initCmds p false)

/-- src/src/frontends/buffered.rs `Buffered`: the inner `Direct`, the
    tracked cursor, and the height×width byte grid. -/
structure Buffered where
  lcd : FDirect
  cursorY : Nat
  cursorX : Nat
  lines : List (List Nat)
  bufHeight : Nat
  bufWidth : Nat
deriving DecidableEq, Repr

/-- src/src/frontends/buffered.rs `Buffered::new`: cursor at (0,0), grid
    filled with the space character. -/
def Buffered.new (lcd : FDirect) : Buffered :=
  { lcd := lcd
    cursorY := 0
    cursorX := 0
    lines := List.replicate lcd.height (List.replicate lcd.width 32)
    bufHeight := lcd.height
    bufWidth := lcd.width }

/-- src/src/frontends/buffered.rs `Buffered::height`. -/
def Buffered.height (b : Buffered) : Nat := b.bufHeight

/-- src/src/frontends/buffered.rs `Buffered::width`. -/
def Buffered.width (b : Buffered) : Nat := b.bufWidth

/-- src/src/frontends/buffered.rs `Buffered::move_at`: bounds check against
    the buffer dimensions, then update only the tracked cursor (no bus
    I/O). -/
def Buffered.move_at (b : Buffered) (y x : Nat) : RunResult FError Buffered :=
  if y ≥ b.height ∨ x ≥ b.width then .err (.moveOutsideScreenAt y x) b []
  else .ok { b with cursorY := y, cursorX := x } []

/-- `buffer.lines[y][x] = ch` on a row-major grid. -/
def setCell (lines : List (List Nat)) (y x ch : Nat) : List (List Nat) :=
  lines.set y ((lines.getD y []).set x ch)

/-- src/src/frontends/buffered.rs `Buffered::print_char`: guard the cursor,
    store the byte, advance the cursor with wrap to column 0 of the next
    row at the last column and to row 0 past the last row (no bus I/O). -/
def Buffered.print_char (b : Buffered) (ch : Nat) : RunResult FError Buffered :=
  if b.cursorY ≥ b.bufHeight ∨ b.cursorX ≥ b.bufWidth then
    .err .printOutsideScreen b []
  else
    let b2 := { b with lines := setCell b.lines b.cursorY b.cursorX ch
                       cursorX := b.cursorX + 1 }
    if b2.cursorX ≥ b2.bufWidth then
      let b3 := { b2 with cursorX := 0, cursorY := b2.cursorY + 1 }
      if b3.cursorY ≥ b3.bufHeight then .ok { b3 with cursorY := 0 } []
      else .ok b3 []
    else .ok b2 []

/-- `print` (trait default of src/src/lib.rs): print each byte in turn via
    `print_char`. -/
def Buffered.printList : Buffered → List Nat → RunResult FError Buffered
  | b, [] => .ok b []
  | b, c :: cs => (b.print_char c).andThen fun b2 => Buffered.printList b2 cs

/-- `print_at` (trait default of src/src/lib.rs): `move_at` then `print`. -/
def Buffered.print_at (b : Buffered) (y x : Nat) (text : List Nat) :
    RunResult FError Buffered :=
  (b.move_at y x).andThen fun b2 => b2.printList text

/-- src/src/frontends/buffered.rs `Buffered::clear`: overwrite every cell
    of the grid with the space character, then `move_at(0, 0)`. -/
def Buffered.clear (b : Buffered) : RunResult FError Buffered :=
  let b2 := { b with lines := b.lines.map fun line => List.map (fun _ => 32) line }
  b2.move_at 0 0

/-- Helper for `render`: print one buffered row through the inner direct
    frontend. -/
def FDirect.printLine : FDirect → List Nat → RunResult FError FDirect
  | l, [] => .ok l []
  | l, c :: cs => (l.print_char c).andThen fun l2 => FDirect.printLine l2 cs

/-- Helper for `render`: for each remaining row, `move_at(y, 0)` on the
    inner direct frontend then print each cell. -/
def renderRows : FDirect → Nat → List (List Nat) → RunResult FError FDirect
  | l, _, [] => .ok l []
  | l, y, line :: rest =>
      ((l.move_at y 0).andThen fun l2 => FDirect.printLine l2 line).andThen fun l3 =>
        renderRows l3 (y + 1) rest

/-- src/src/frontends/buffered.rs `Buffered::render`: walk every row
    top-to-bottom, issuing `move_at(y, 0)` then one `print_char` per cell
    on the inner direct frontend — a full repaint. -/
def Buffered.render (b : Buffered) : RunResult FError Buffered :=
  match renderRows b.lcd 0 b.lines with
  | .ok l tr => .ok { b with lcd := l } tr
  | .err e l tr => .err e { b with lcd := l } tr
  | .panicked => .panicked

/-- A 20×4 frontends-family direct frontend in its post-construction
    state. -/
def lcd20x4 : FDirect :=
  { properties := { width := 20, height := 4, font := .font5x8 }
    state := { cursor_blinking := false, cursor_visible := false, text_visible := true } }

/-- The end-to-end scenario of the spec: on a 20×4 buffered display,
    `print_at(1, 0, "Hello")` then `render()`. -/
def c6Scenario : RunResult FError Buffered :=
  ((Buffered.new lcd20x4).print_at 1 0 [72, 101, 108, 108, 111]).andThen
    fun b2 => b2.render

/-- A 4×2 lcds-family `DirectLcd` in its post-construction state. -/
def lcdEx : DirectLcd :=
  { properties := { dimensions := { x := 4, y := 2 }, font := .font5x8 }
    display_flags := { cursor_blinking := false, cursor_visible := false, text_visible := true } }

/-- A 20×8 lcds-family `DirectLcd` (a display taller than the 4-entry
    address table). -/
def lcdTall : DirectLcd :=
  { properties := { dimensions := { x := 20, y := 8 }, font := .font5x8 }
    display_flags := { cursor_blinking := false, cursor_visible := false, text_visible := true } }

/-- A 20×8 frontends-family direct frontend. -/
def fdTall : FDirect :=
  { properties := { width := 20, height := 8, font := .font5x8 }
    state := { cursor_blinking := false, cursor_visible := false, text_visible := true } }

/-- A 2×2 buffered frontend in its post-construction state. -/
def bufEx : Buffered :=
  Buffered.new
    { properties := { width := 2, height := 2, font := .font5x8 }
      state := { cursor_blinking := false, cursor_visible := false, text_visible := true } }

/-- `true` iff the trace contains a sleep event. -/
def hasWaitEv (tr : List BusEv) : Bool :=
  tr.any fun e =>
    match e with
    | .waitNs _ => true
    | _ => false

/-- Disjoint-bit OR is addition: the DDRAM opcode `0x80 | addr` for
    `addr < 0x80`. -/
theorem lor_128_eq_add : ∀ a : Nat, a < 128 → 128 ||| a = 128 + a := by decide

/-- Disjoint-bit OR is addition: the CGRAM opcode `0x40 | (idx << 3)` for
    `idx < 8`. -/
theorem lor_64_shl3_eq_add : ∀ i : Nat, i < 8 → 64 ||| (i <<< 3) = 64 + i * 8 := by
  decide

/-- C1: the command encoder reproduces the hardware bit layout — both byte
    writers (`Command::write` of the lcds family and `Bus::execute` of the
    buses family) emit `0x80 | addr` for `SetDDRamAddress` with
    `addr ∈ 0..0x7F`, `0x40 | (idx << 3)` for `SetCGRamAddress` with
    `idx ∈ 0..7`, and for `SetDisplayFlags` a byte with base 0x08 whose
    bit 0 is the blink flag, bit 1 the cursor-visible flag and bit 2 the
    text-visible flag, for every combination of the three booleans. -/
theorem c1_command_encoder_bit_layout (addr idx : Nat) (bl cv tv : Bool)
    (haddr : addr ≤ 0x7F) (hidx : idx ≤ 7) :
    Command.write (.SetDDRamAddress addr) = [.cmd (0x80 + addr)] ∧
    Bus.execute (.SetDDRamAddress addr) = [.cmd (0x80 + addr)] ∧
    Command.write (.SetCGRamAddress (idx <<< 3)) = [.cmd (0x40 + idx * 8)] ∧
    Bus.execute (.SetCGRamAddress (idx <<< 3)) = [.cmd (0x40 + idx * 8)] ∧
    (∃ n, Command.write (.SetDisplayFlags bl cv tv) = [.cmd n] ∧
      Bus.execute (.SetDisplayFlags bl cv tv) = [.cmd n] ∧
      n.testBit 0 = bl ∧ n.testBit 1 = cv ∧ n.testBit 2 = tv ∧
      n.testBit 3 = true ∧ n >>> 4 = 0) := by
  have h1 : (128 : Nat) ||| addr = 128 + addr := lor_128_eq_add addr (by omega)
  have h2 : (64 : Nat) ||| (idx <<< 3) = 64 + idx * 8 :=
    lor_64_shl3_eq_add idx (by omega)
  refine ⟨?_, ?_, ?_, ?_, ?_⟩
  · simp [Command.write, h1]
  · simp [Bus.execute, h1]
  · simp [Command.write, h2]
  · simp [Bus.execute, h2]
  · cases bl <;> cases cv <;> cases tv <;>
      exact ⟨_, rfl, rfl, by decide, by decide, by decide, by decide, by decide⟩

/-- Witness for C1 at `addr = 0x37`, `idx = 5`, flags (true, false, true). -/
theorem c1_command_encoder_bit_layout_witness :
    Command.write (.SetDDRamAddress 0x37) = [.cmd (0x80 + 0x37)] ∧
    Bus.execute (.SetDDRamAddress 0x37) = [.cmd (0x80 + 0x37)] ∧
    Command.write (.SetCGRamAddress (5 <<< 3)) = [.cmd (0x40 + 5 * 8)] ∧
    Bus.execute (.SetCGRamAddress (5 <<< 3)) = [.cmd (0x40 + 5 * 8)] ∧
    (∃ n, Command.write (.SetDisplayFlags true false true) = [.cmd n] ∧
      Bus.execute (.SetDisplayFlags true false true) = [.cmd n] ∧
      n.testBit 0 = true ∧ n.testBit 1 = false ∧ n.testBit 2 = true ∧
      n.testBit 3 = true ∧ n >>> 4 = 0) :=
  c1_command_encoder_bit_layout 0x37 5 true false true (by decide) (by decide)

/-- C3: `DirectLcd::goto` with an out-of-bounds point returns the
    `CursorOutOfBounds` error, writes nothing on the bus, and leaves the
    frontend state exactly as it was. -/
theorem c3_goto_out_of_bounds (lcd : DirectLcd) (p : Point)
    (h : p.x ≥ lcd.properties.dimensions.x ∨ p.y ≥ lcd.properties.dimensions.y) :
    DirectLcd.goto lcd p =
      .err (.CursorOutOfBounds p lcd.properties.dimensions) lcd [] := by
  have hcond : ¬(p.x < lcd.properties.dimensions.x ∧
      p.y < lcd.properties.dimensions.y) := by omega
  unfold DirectLcd.goto Point.validate
  rw [if_neg hcond]

/-- Witness for C3: a 4×2 display, point (7, 0). -/
theorem c3_goto_out_of_bounds_witness :
    DirectLcd.goto lcdEx { x := 7, y := 0 } =
      .err (.CursorOutOfBounds { x := 7, y := 0 } lcdEx.properties.dimensions)
        lcdEx [] :=
  c3_goto_out_of_bounds lcdEx { x := 7, y := 0 } (by decide)

/-- C4: `create_char` (both the lcds-family `DirectLcd` and the
    frontends-family `Direct`) rejects every glyph index above 7 with an
    error and zero bus writes, and for an index in 0..7 issues exactly one
    `SetCGRamAddress` command byte with address `idx << 3` followed by the
    bitmap bytes as data writes, in order. -/
theorem c4_create_char_glyph_index (lcd : DirectLcd) (fl : FDirect)
    (idx : Nat) (lines : List Nat) :
    DirectLcd.create_char lcd idx lines =
      (if 7 < idx then .err (.CharOutOfBounds idx) lcd []
       else .ok lcd (.cmd (0x40 + idx * 8) :: lines.map .data)) ∧
    FDirect.create_char fl idx lines =
      (if 7 < idx then .err .charIndexOutOfRange fl []
       else .ok fl (.cmd (0x40 + idx * 8) :: lines.map .data)) := by
  by_cases h : 7 < idx
  · constructor
    · unfold DirectLcd.create_char
      rw [if_pos h, if_pos h]
    · unfold FDirect.create_char
      rw [if_pos h, if_pos h]
  · have h2 : (64 : Nat) ||| (idx <<< 3) = 64 + idx * 8 :=
      lor_64_shl3_eq_add idx (by omega)
    constructor
    · unfold DirectLcd.create_char
      rw [if_neg h, if_neg h]
      simp [Command.write, h2]
    · unfold FDirect.create_char
      rw [if_neg h, if_neg h]
      simp [Bus.execute, h2]

/-- C8: after `Clear`/`Home` the lcds-family `Command::write` sleeps only
    1,000 ns — `wait_ms(1)` as defined in utils.rs multiplies by 1000 once,
    i.e. microseconds — which is below the mandated 1 ms, while the
    buses-family `Bus::execute` sleeps the full 1,000,000 ns; no other
    command is followed by any sleep in either writer. -/
theorem c8_clear_home_settle_delay (s i bl cv tv f eb : Bool) (h a : Nat) :
    Command.write .Clear = [.cmd 0x01, .waitNs 1000] ∧
    Command.write .Home = [.cmd 0x02, .waitNs 1000] ∧
    (1000 : Nat) < 1000000 ∧
    Bus.execute .Clear = [.cmd 0x01, .waitNs 1000000] ∧
    Bus.execute .Home = [.cmd 0x02, .waitNs 1000000] ∧
    hasWaitEv (Command.write (.SetEntryMode s i)) = false ∧
    hasWaitEv (Command.write (.SetDisplayFlags bl cv tv)) = false ∧
    hasWaitEv (Command.write (.SetFunctions f h eb)) = false ∧
    hasWaitEv (Command.write (.SetCGRamAddress a)) = false ∧
    hasWaitEv (Command.write (.SetDDRamAddress a)) = false ∧
    hasWaitEv (Bus.execute (.SetEntryMode s i)) = false ∧
    hasWaitEv (Bus.execute (.SetDisplayFlags bl cv tv)) = false ∧
    hasWaitEv (Bus.execute (.SetFunctions f h eb)) = false ∧
    hasWaitEv (Bus.execute (.SetCGRamAddress a)) = false ∧
    hasWaitEv (Bus.execute (.SetDDRamAddress a)) = false := by
  refine ⟨rfl, rfl, by omega, rfl, rfl, ?_, ?_, ?_, ?_, ?_, ?_, ?_, ?_, ?_, ?_⟩ <;>
    simp [Command.write, Bus.execute, hasWaitEv]

/-- C2: on both transports the construction trace starts with the
    initialization handshake — exactly four raw nibble writes in the fixed
    order 0x3, 0x3, 0x3, 0x2, each followed by settle sleeps — and every
    application command byte comes after it.  On GPIO the handshake is the
    `GpioBus::new` trace; on I2C it is the `I2C::initialize` trace, whose
    expander bytes carry the nibbles 3, 3, 3, 2 (one `Enable`-high byte per
    nibble write). -/
theorem c2_init_handshake (props : Properties) (p : FProperties) :
    directOverGpioConstruction props =
      gpioNewTrace ++ gpioRun (DirectLcd.initCmds props false) ∧
    gpioNewTrace =
      [GpioEv.nib 3 false, .waitNs 1000, .waitNs 450, .waitNs 37000, .waitNs 1000,
       .nib 3 false, .waitNs 1000, .waitNs 450, .waitNs 37000, .waitNs 1000,
       .nib 3 false, .waitNs 1000, .waitNs 450, .waitNs 37000, .waitNs 1000,
       .nib 2 false, .waitNs 1000, .waitNs 450, .waitNs 37000, .waitNs 1000] ∧
    gpioNibs gpioNewTrace = [(3, false), (3, false), (3, false), (2, false)] ∧
    gpioNibs (directOverGpioConstruction props) =
      [(3, false), (3, false), (3, false), (2, false)]
        ++ gpioNibs (gpioRun (DirectLcd.initCmds props false)) ∧
    directOverI2cConstruction p =
      i2cInitTrace ++ i2cRun { backlight_enabled := true } (FDirect.initCmds p false) ∧
    i2cInitTrace =
      [I2cEv.smbus 0x34, .waitNs 450, .smbus 0x30, .waitNs 37000, .waitNs 100000,
       .smbus 0x34, .waitNs 450, .smbus 0x30, .waitNs 37000, .waitNs 100000,
       .smbus 0x34, .waitNs 450, .smbus 0x30, .waitNs 37000, .waitNs 100000,
       .smbus 0x24, .waitNs 450, .smbus 0x20, .waitNs 37000, .waitNs 100000] ∧
    i2cEnableHighNibbles i2cInitTrace = [3, 3, 3, 2] ∧
    i2cEnableHighNibbles (directOverI2cConstruction p) =
      [3, 3, 3, 2] ++ i2cEnableHighNibbles
        (i2cRun { backlight_enabled := true } (FDirect.initCmds p false)) := by
  refine ⟨rfl, by decide, by decide, ?_, rfl, by decide, by decide, ?_⟩
  · unfold directOverGpioConstruction gpioNibs
    rw [List.filterMap_append]
    rfl
  · unfold directOverI2cConstruction i2cEnableHighNibbles
    rw [List.filterMap_append]
    rfl

/-- Bit 3 of `v &&& 0xF0` is always clear. -/
theorem testBit3_and_240 (v : Nat) : (v &&& 240).testBit 3 = false := by
  rw [Nat.testBit_and]
  simp [Nat.testBit]

/-- C7: `I2C::set_backlight` stores the new flag and then issues exactly one
    dummy command-byte write of value zero (two nibbles, four expander
    bytes, each carrying the new backlight bit in bit 3 and `Rs` clear in
    bit 0); and every byte write carries the stored backlight flag in bit 3
    of every expander byte it transfers. -/
theorem c7_i2c_backlight_dummy_write (s s2 : I2cState) (e d : Bool) (v : Nat) :
    (I2C.set_backlight s e).1 = { backlight_enabled := e } ∧
    (I2C.set_backlight s e).2 =
      i2cWriteByteTrace { backlight_enabled := e } 0 false ∧
    (I2C.set_backlight s e).2 =
      (if e then
        [I2cEv.smbus 0x0C, .waitNs 450, .smbus 0x08, .waitNs 37000,
         .smbus 0x0C, .waitNs 450, .smbus 0x08, .waitNs 37000]
       else
        [I2cEv.smbus 0x04, .waitNs 450, .smbus 0x00, .waitNs 37000,
         .smbus 0x04, .waitNs 450, .smbus 0x00, .waitNs 37000]) ∧
    ((i2cSmbusBytes (i2cWriteByteTrace s2 v d)).all
        fun b => b.testBit 3 == s2.backlight_enabled) = true := by
  refine ⟨rfl, rfl, ?_, ?_⟩
  · cases e <;> rfl
  · obtain ⟨bl⟩ := s2
    have h1 := testBit3_and_240 v
    have h2 := testBit3_and_240 ((v <<< 4) % 256)
    have t240 : Nat.testBit 240 3 = false := by decide
    have t1 : Nat.testBit 1 3 = false := by decide
    have t4 : Nat.testBit 4 3 = false := by decide
    have t8 : Nat.testBit 8 3 = true := by decide
    have t9 : Nat.testBit 9 3 = true := by decide
    have t251 : Nat.testBit 251 3 = true := by decide
    cases bl <;> cases d <;>
      simp_all [i2cWriteByteTrace, i2cWriteNibble, i2cSmbusBytes,
        Nat.testBit_or, Nat.testBit_and]

/-- A grid whose every row is overwritten with a constant becomes a
    replicate-of-replicate grid, given its row count and row lengths. -/
theorem map_const_grid (lines : List (List Nat)) (n m : Nat)
    (hlen : lines.length = n) (hrows : ∀ line ∈ lines, line.length = m) :
    lines.map (fun line => List.map (fun _ => 32) line)
      = List.replicate n (List.replicate m 32) := by
  induction lines generalizing n with
  | nil => simp_all
  | cons row rest ih =>
      cases n with
      | zero => simp_all
      | succ k =>
          have hrow : row.length = m := hrows row (by simp)
          have hrest : ∀ line ∈ rest, line.length = m := by
            intro line hline
            exact hrows line (by simp [hline])
          have hr : rest.length = k := by simpa using hlen
          have ihr := ih k hr hrest
          simp only [List.map_cons, List.replicate_succ]
          rw [ihr, List.map_const', hrow]

/-- C9: `Buffered::clear` rewrites every one of the height×width buffer
    cells to the space character (0x20) and resets the tracked cursor to
    (0, 0), while emitting zero bus events and leaving the inner direct
    frontend (`lcd` field, record update) untouched; nothing reaches the
    hardware until `render`. -/
theorem c9_buffered_clear (b : Buffered)
    (hH : 0 < b.bufHeight) (hW : 0 < b.bufWidth)
    (hlen : b.lines.length = b.bufHeight)
    (hrows : ∀ line ∈ b.lines, line.length = b.bufWidth) :
    Buffered.clear b =
      .ok { b with lines := List.replicate b.bufHeight (List.replicate b.bufWidth 32)
                   cursorY := 0
                   cursorX := 0 } [] := by
  have hmap := map_const_grid b.lines b.bufHeight b.bufWidth hlen hrows
  have hc : ¬(0 ≥ b.bufHeight ∨ 0 ≥ b.bufWidth) := by omega
  simp only [Buffered.clear, Buffered.move_at, Buffered.height, Buffered.width]
  rw [if_neg hc, hmap]

/-- Witness for C9: the 2×2 buffered display. -/
theorem c9_buffered_clear_witness :
    Buffered.clear bufEx =
      .ok { bufEx with
              lines := List.replicate bufEx.bufHeight (List.replicate bufEx.bufWidth 32)
              cursorY := 0
              cursorX := 0 } [] :=
  c9_buffered_clear bufEx (by decide) (by decide) (by decide) (by decide)

/-- C6 counterexample: on the 20×4 buffered display, `print_at(1,0,"Hello")`
    followed by `render()` does not issue just one goto to DDRAM address
    0x40 and the five data bytes of "Hello" — `render` is a full repaint. -/
theorem c6_render_not_minimal :
    traceOf c6Scenario ≠
      some [BusEv.cmd 0xC0, .data 72, .data 101, .data 108, .data 108, .data 111] := by
  decide

/-- C6 as amended: the scenario issues one goto per row, to the DDRAM row
    addresses 0x00, 0x40, 0x14, 0x54 in order, each followed by the row's
    20 cells as data writes; the writes after the goto to 0x40 begin with
    'H','e','l','l','o' and continue with 15 spaces. -/
theorem c6_render_full_repaint :
    traceOf c6Scenario =
      some ([BusEv.cmd 0x80] ++ List.replicate 20 (BusEv.data 32)
        ++ [BusEv.cmd 0xC0, BusEv.data 72, BusEv.data 101, BusEv.data 108,
            BusEv.data 108, BusEv.data 111]
        ++ List.replicate 15 (BusEv.data 32)
        ++ [BusEv.cmd 0x94] ++ List.replicate 20 (BusEv.data 32)
        ++ [BusEv.cmd 0xD4] ++ List.replicate 20 (BusEv.data 32)) := by
  decide

/-- Row-major cell index of an in-bounds cursor is below the cell count. -/
theorem rowIndexLt (Y X H W : Nat) (hy : Y < H) (hx : X < W) :
    Y * W + X < H * W := by
  have h1 : (Y + 1) * W = Y * W + W := by ring
  have h2 : (Y + 1) * W ≤ H * W := Nat.mul_le_mul_right W hy
  omega

/-- One `Buffered::print_char` from an in-bounds cursor succeeds, stays
    in bounds, touches neither the inner frontend nor the dimensions, and
    advances the row-major cell index by one modulo the cell count. -/
theorem print_char_step (b : Buffered) (ch : Nat)
    (hy : b.cursorY < b.bufHeight) (hx : b.cursorX < b.bufWidth) :
    ∃ b2, b.print_char ch = .ok b2 [] ∧
      b2.lcd = b.lcd ∧
      b2.bufHeight = b.bufHeight ∧ b2.bufWidth = b.bufWidth ∧
      b2.cursorY < b.bufHeight ∧ b2.cursorX < b.bufWidth ∧
      b2.cursorY * b.bufWidth + b2.cursorX
        = (b.cursorY * b.bufWidth + b.cursorX + 1) % (b.bufHeight * b.bufWidth) := by
  have hg : ¬(b.cursorY ≥ b.bufHeight ∨ b.cursorX ≥ b.bufWidth) := by omega
  simp only [Buffered.print_char]
  rw [if_neg hg]
  by_cases hxw : b.cursorX + 1 ≥ b.bufWidth
  · have hX : b.cursorX + 1 = b.bufWidth := by omega
    by_cases hyh : b.cursorY + 1 ≥ b.bufHeight
    · have hY : b.cursorY + 1 = b.bufHeight := by omega
      have hidx : b.cursorY * b.bufWidth + b.cursorX + 1
          = b.bufHeight * b.bufWidth := by
        have h1 : (b.cursorY + 1) * b.bufWidth
            = b.cursorY * b.bufWidth + b.bufWidth := by ring
        rw [← hY, h1]
        omega
      rw [if_pos hxw, if_pos hyh]
      refine ⟨_, rfl, rfl, rfl, rfl, ?_, ?_, ?_⟩
      · show (0 : Nat) < b.bufHeight
        omega
      · show (0 : Nat) < b.bufWidth
        omega
      · show (0 : Nat) * b.bufWidth + 0
            = (b.cursorY * b.bufWidth + b.cursorX + 1) % (b.bufHeight * b.bufWidth)
        rw [hidx, Nat.mod_self]
        omega
    · have hidx : b.cursorY * b.bufWidth + b.cursorX + 1
          = (b.cursorY + 1) * b.bufWidth := by
        have h1 : (b.cursorY + 1) * b.bufWidth
            = b.cursorY * b.bufWidth + b.bufWidth := by ring
        omega
      have hlt : (b.cursorY + 1) * b.bufWidth < b.bufHeight * b.bufWidth := by
        have := rowIndexLt (b.cursorY + 1) 0 b.bufHeight b.bufWidth (by omega) (by omega)
        omega
      rw [if_pos hxw, if_neg hyh]
      refine ⟨_, rfl, rfl, rfl, rfl, ?_, ?_, ?_⟩
      · show b.cursorY + 1 < b.bufHeight
        omega
      · show (0 : Nat) < b.bufWidth
        omega
      · show (b.cursorY + 1) * b.bufWidth + 0
            = (b.cursorY * b.bufWidth + b.cursorX + 1) % (b.bufHeight * b.bufWidth)
        rw [hidx, Nat.mod_eq_of_lt hlt]
        omega
  · have hlt : b.cursorY * b.bufWidth + (b.cursorX + 1)
        < b.bufHeight * b.bufWidth :=
      rowIndexLt b.cursorY (b.cursorX + 1) b.bufHeight b.bufWidth hy (by omega)
    rw [if_neg hxw]
    refine ⟨_, rfl, rfl, rfl, rfl, ?_, ?_, ?_⟩
    · show b.cursorY < b.bufHeight
      omega
    · show b.cursorX + 1 < b.bufWidth
      omega
    · show b.cursorY * b.bufWidth + (b.cursorX + 1)
          = (b.cursorY * b.bufWidth + b.cursorX + 1) % (b.bufHeight * b.bufWidth)
      rw [show b.cursorY * b.bufWidth + b.cursorX + 1
          = b.cursorY * b.bufWidth + (b.cursorX + 1) from by omega]
      rw [Nat.mod_eq_of_lt hlt]

/-- Iterating `print_char` over a list of bytes from an in-bounds cursor
    never errors and advances the row-major cell index by the list length,
    modulo the cell count. -/
theorem printList_cursor (cs : List Nat) : ∀ b : Buffered,
    b.cursorY < b.bufHeight → b.cursorX < b.bufWidth →
    ∃ b2, b.printList cs = .ok b2 [] ∧
      b2.lcd = b.lcd ∧
      b2.bufHeight = b.bufHeight ∧ b2.bufWidth = b.bufWidth ∧
      b2.cursorY < b.bufHeight ∧ b2.cursorX < b.bufWidth ∧
      b2.cursorY * b.bufWidth + b2.cursorX
        = (b.cursorY * b.bufWidth + b.cursorX + cs.length)
            % (b.bufHeight * b.bufWidth) := by
  induction cs with
  | nil =>
      intro b hy hx
      have hlt := rowIndexLt b.cursorY b.cursorX b.bufHeight b.bufWidth hy hx
      exact ⟨b, rfl, rfl, rfl, rfl, hy, hx, by
        simp [Nat.mod_eq_of_lt hlt]⟩
  | cons c cs ih =>
      intro b hy hx
      obtain ⟨b1, hb1, hlcd1, hH1, hW1, hy1, hx1, hidx1⟩ := print_char_step b c hy hx
      obtain ⟨b2, hb2, hlcd2, hH2, hW2, hy2, hx2, hidx2⟩ :=
        ih b1 (by omega) (by omega)
      refine ⟨b2, ?_, by rw [hlcd2, hlcd1], by omega, by omega,
        by omega, by omega, ?_⟩
      · show (b.print_char c).andThen (fun bb => bb.printList cs) = .ok b2 []
        rw [hb1]
        simp [RunResult.andThen, hb2]
      · rw [hH1, hW1] at hidx2
        rw [hidx2, hidx1, Nat.mod_add_mod, List.length_cons]
        congr 1
        omega

/-- Row-major cell indices determine the cursor coordinates uniquely. -/
theorem rowIndexInj (a x c z W : Nat) (hx : x < W) (hz : z < W)
    (h : a * W + x = c * W + z) : a = c ∧ x = z := by
  have hW : 0 < W := by omega
  have h1 : (a * W + x) % W = x := by
    rw [Nat.add_comm, Nat.add_mul_mod_self_right, Nat.mod_eq_of_lt hx]
  have h2 : (c * W + z) % W = z := by
    rw [Nat.add_comm, Nat.add_mul_mod_self_right, Nat.mod_eq_of_lt hz]
  have hxz : x = z := by rw [← h1, h, h2]
  have haw : a * W = c * W := by omega
  exact ⟨Nat.eq_of_mul_eq_mul_right hW haw, hxz⟩

/-- C5: from any in-bounds cursor, the buffered `print_char` never errors —
    it stays in bounds and advances the row-major cell index by exactly one
    modulo width*height (so the last column wraps to column 0 of the next
    row and the last cell wraps to (0, 0)) — and iterating it exactly
    width*height times returns the cursor to its starting cell. -/
theorem c5_buffered_print_char_ring (b : Buffered) (cs : List Nat) (ch : Nat)
    (hy : b.cursorY < b.bufHeight) (hx : b.cursorX < b.bufWidth)
    (hlen : cs.length = b.bufWidth * b.bufHeight) :
    (∃ b1, b.print_char ch = .ok b1 [] ∧
       b1.cursorY < b.bufHeight ∧ b1.cursorX < b.bufWidth ∧
       b1.cursorY * b.bufWidth + b1.cursorX
         = (b.cursorY * b.bufWidth + b.cursorX + 1)
             % (b.bufHeight * b.bufWidth)) ∧
    (∃ b2, b.printList cs = .ok b2 [] ∧
       b2.cursorY = b.cursorY ∧ b2.cursorX = b.cursorX) := by
  constructor
  · obtain ⟨b1, hb1, _, _, _, h5, h6, h7⟩ := print_char_step b ch hy hx
    exact ⟨b1, hb1, h5, h6, h7⟩
  · obtain ⟨b2, hb2, _, hH2, hW2, hy2, hx2, hidx2⟩ := printList_cursor cs b hy hx
    have hlt := rowIndexLt b.cursorY b.cursorX b.bufHeight b.bufWidth hy hx
    have hfull : b.cursorY * b.bufWidth + b.cursorX + cs.length
        = b.cursorY * b.bufWidth + b.cursorX + b.bufHeight * b.bufWidth := by
      rw [hlen]
      ring
    rw [hfull, Nat.add_mod_right, Nat.mod_eq_of_lt hlt] at hidx2
    obtain ⟨hYeq, hXeq⟩ := rowIndexInj b2.cursorY b2.cursorX b.cursorY b.cursorX
      b.bufWidth (by omega) hx hidx2
    exact ⟨b2, hb2, hYeq, hXeq⟩

/-- Witness for C5: the 2×2 buffered display, four printed bytes. -/
theorem c5_buffered_print_char_ring_witness :
    (∃ b1, bufEx.print_char 72 = .ok b1 [] ∧
       b1.cursorY < bufEx.bufHeight ∧ b1.cursorX < bufEx.bufWidth ∧
       b1.cursorY * bufEx.bufWidth + b1.cursorX
         = (bufEx.cursorY * bufEx.bufWidth + bufEx.cursorX + 1)
             % (bufEx.bufHeight * bufEx.bufWidth)) ∧
    (∃ b2, bufEx.printList [72, 101, 108, 111] = .ok b2 [] ∧
       b2.cursorY = bufEx.cursorY ∧ b2.cursorX = bufEx.cursorX) :=
  c5_buffered_print_char_ring bufEx [72, 101, 108, 111] 72
    (by decide) (by decide) (by decide)

/-- C10: the goto/move_at row lookup indexes the fixed 4-entry DDRAM table
    after checking only against the configured height.  For a height ≤ 4
    and an in-bounds point the lookup is in range and the call succeeds
    with the expected `SetDDRamAddress` write; for a configured height > 4,
    an in-bounds call with row 4 ≤ y < height passes validation and then
    indexes the table out of range — a panic, not a returned error.  Both
    the lcds-family `DirectLcd::goto` and the frontends-family
    `Direct::move_at` behave this way. -/
theorem c10_row_address_table (lcd : DirectLcd) (fl : FDirect) (p : Point)
    (y x : Nat) :
    (lcd.properties.dimensions.y ≤ 4 →
       p.x < lcd.properties.dimensions.x → p.y < lcd.properties.dimensions.y →
       ∃ a, ddramAddresses.get? p.y = some a ∧
         DirectLcd.goto lcd p = .ok lcd [.cmd (0x80 ||| ((a + p.x) % 256))]) ∧
    (4 < lcd.properties.dimensions.y → 4 ≤ p.y →
       p.y < lcd.properties.dimensions.y → p.x < lcd.properties.dimensions.x →
       DirectLcd.goto lcd p = .panicked) ∧
    (fl.properties.height ≤ 4 → y < fl.properties.height →
       x < fl.properties.width →
       ∃ a, ddramAddresses.get? y = some a ∧
         FDirect.move_at fl y x = .ok fl [.cmd (0x80 ||| ((a + x) % 256))]) ∧
    (4 < fl.properties.height → 4 ≤ y → y < fl.properties.height →
       x < fl.properties.width →
       FDirect.move_at fl y x = .panicked) := by
  refine ⟨?_, ?_, ?_, ?_⟩
  · intro h4 hx hy
    have hv : p.x < lcd.properties.dimensions.x ∧
        p.y < lcd.properties.dimensions.y := ⟨hx, hy⟩
    simp only [DirectLcd.goto, Point.validate]
    rw [if_pos hv]
    have hp : p.y = 0 ∨ p.y = 1 ∨ p.y = 2 ∨ p.y = 3 := by omega
    rcases hp with hp | hp | hp | hp <;> rw [hp] <;> exact ⟨_, rfl, rfl⟩
  · intro h4 hy4 hy hx
    have hv : p.x < lcd.properties.dimensions.x ∧
        p.y < lcd.properties.dimensions.y := ⟨hx, hy⟩
    have hnone : ddramAddresses.get? p.y = none := by
      rw [List.get?_eq_none]
      simp only [ddramAddresses, List.length_cons, List.length_nil]
      omega
    simp only [DirectLcd.goto, Point.validate]
    rw [if_pos hv, hnone]
  · intro h4 hy hx
    have hv : ¬(y ≥ fl.properties.height ∨ x ≥ fl.properties.width) := by omega
    simp only [FDirect.move_at, FDirect.height, FDirect.width]
    rw [if_neg hv]
    have hp : y = 0 ∨ y = 1 ∨ y = 2 ∨ y = 3 := by omega
    rcases hp with hp | hp | hp | hp <;> rw [hp] <;> exact ⟨_, rfl, rfl⟩
  · intro h4 hy4 hy hx
    have hv : ¬(y ≥ fl.properties.height ∨ x ≥ fl.properties.width) := by omega
    have hnone : ddramAddresses.get? y = none := by
      rw [List.get?_eq_none]
      simp only [ddramAddresses, List.length_cons, List.length_nil]
      omega
    simp only [FDirect.move_at, FDirect.height, FDirect.width]
    rw [if_neg hv, hnone]

/-- Witness for C10: a 4×2 display succeeds at (1, 1); the 20×8 displays
    panic at rows 5 and 6; the 20×4 frontend succeeds at row 2. -/
theorem c10_row_address_table_witness :
    (∃ a, ddramAddresses.get? (1 : Nat) = some a ∧
       DirectLcd.goto lcdEx { x := 1, y := 1 } =
         .ok lcdEx [.cmd (0x80 ||| ((a + 1) % 256))]) ∧
    DirectLcd.goto lcdTall { x := 0, y := 5 } = .panicked ∧
    (∃ a, ddramAddresses.get? (2 : Nat) = some a ∧
       FDirect.move_at lcd20x4 2 3 = .ok lcd20x4 [.cmd (0x80 ||| ((a + 3) % 256))]) ∧
    FDirect.move_at fdTall 6 0 = .panicked := by
  refine ⟨?_, ?_, ?_, ?_⟩
  · exact (c10_row_address_table lcdEx lcd20x4 { x := 1, y := 1 } 2 3).1
      (by decide) (by decide) (by decide)
  · exact (c10_row_address_table lcdTall lcd20x4 { x := 0, y := 5 } 2 3).2.1
      (by decide) (by decide) (by decide) (by decide)
  · exact (c10_row_address_table lcdEx lcd20x4 { x := 1, y := 1 } 2 3).2.2.1
      (by decide) (by decide) (by decide)
  · exact (c10_row_address_table lcdEx fdTall { x := 1, y := 1 } 6 0).2.2.2
      (by decide) (by decide) (by decide) (by decide)
